import Mathlib

/-!
Verification development for the winestreamproxy helper module
(src/lutris/util/wine/discordipc.py).

The module keeps a versioned helper binary up to date on disk: it fetches
release metadata from GitHub with a 24 hour cache and stale fallback
(Winestreamproxy._download_latest_release_json), downloads and extracts a
release archive into a staging directory that is atomically renamed into
place (WinestreamproxyUtils.download_and_extract_tar_file), and promotes
the new version by an atomic symlink swap with best effort garbage
collection of the superseded version (tail of Winestreamproxy.download).

The embedding below models the filesystem as an association list from
absolute paths (component lists) to nodes (file, directory, symlink), and
each Python function as a Lean function threading that state explicitly.
External collaborators that are not part of src/ (the HTTP transport, the
tar extraction, lutris.util.system.remove_folder, RUNTIME_DIR from
lutris.settings) are supplied as environment oracles or fixed constants,
following the spec, which treats them as capabilities.
-/

set_option autoImplicit false

namespace Discordipc

/-- Python exception kinds raised by the modelled code paths. -/
inductive Err where
  | keyError (key : String)
  | valueError
  | typeError
  | fileNotFoundError
  | osError
  | jsonDecodeError
  | isADirectoryError
  | fileExistsError
  | fetchError
  | extractionError
  | chmodError
  | renameError
deriving DecidableEq, Repr

/-- An absolute filesystem path, as its list of components. -/
abbrev Path := List String

/-- A filesystem node: regular file, directory, or symbolic link.
Symlink targets are absolute paths, matching the code, which creates its
link with an absolute target (os.symlink(extract_to, ...)). -/
inductive Node where
  | file
  | dir
  | symlink (target : Path)
deriving DecidableEq, Repr

/-- The filesystem: an association list from paths to nodes. -/
abbrev FS := List (Path × Node)

/-- Look up the node at a path. -/
def fsGet : FS → Path → Option Node
  | [], _ => none
  | (q, n) :: rest, p => if q = p then some n else fsGet rest p

/-- Delete every entry at a path. -/
def fsRemove : FS → Path → FS
  | [], _ => []
  | (q, n) :: rest, p => if q = p then fsRemove rest p else (q, n) :: fsRemove rest p

/-- Create or replace the entry at a path. -/
def fsSet (fs : FS) (p : Path) (n : Node) : FS :=
  (p, n) :: fsRemove fs p

/-- The directory part of a path (os.path.dirname). -/
def dirname (p : Path) : Path := p.dropLast

/-- The final component of a path (os.path.basename). -/
def basename (p : Path) : String := p.getLastD ""

/-- RUNTIME_DIR from lutris.settings is not part of src/; the spec treats
it as the fixed runtime root, so it is modelled as a fixed absolute path. -/
def RUNTIME_DIR : Path := ["runtime"]

/-- WinestreamproxyPaths.runtime_subdir: os.path.join(RUNTIME_DIR, "winestreamproxy"). -/
def runtime_subdir : Path := RUNTIME_DIR ++ ["winestreamproxy"]

/-- WinestreamproxyPaths.latest_release_path: the active version symlink. -/
def latest_release_path : Path := runtime_subdir ++ ["latest"]

/-- Resolve symlinks along a path, component by component, the way
os.path.realpath does.  The fuel bound plays the role of the symlink loop
limit; it is consumed once per processed component, which is ample for
every state considered here, and on exhaustion the remaining components
are returned unresolved, mirroring realpath, which never raises. -/
def realpathAux (fs : FS) : Nat → Path → Path → Path
  | 0, acc, rest => acc ++ rest
  | _ + 1, acc, [] => acc
  | n + 1, acc, c :: rest =>
    match fsGet fs (acc ++ [c]) with
    | some (Node.symlink t) => realpathAux fs n [] (t ++ rest)
    | _ => realpathAux fs n (acc ++ [c]) rest

/-- os.path.realpath on the modelled filesystem. -/
def realpath (fs : FS) (p : Path) : Path := realpathAux fs 32 [] p

/-- os.path.exists: follows symlinks, never raises. -/
def os_path_exists (fs : FS) (p : Path) : Bool :=
  (fsGet fs (realpath fs p)).isSome

/-- os.path.samefile: stats both paths, so it raises FileNotFoundError
when either side does not resolve to an existing node; otherwise it
compares identities, modelled as equality of resolved paths (the model
has no hard links). -/
def samefile (fs : FS) (a b : Path) : Except Err Bool :=
  if os_path_exists fs a && os_path_exists fs b then
    Except.ok (decide (realpath fs a = realpath fs b))
  else
    Except.error Err.fileNotFoundError

/-! ## Release metadata

The code reads data["tag_name"], data["assets"], asset["name"] and
asset["browser_download_url"] from the parsed GitHub JSON.  Missing keys
raise KeyError, which the embedding models with Option for the two keys
the claims exercise. -/

/-- One element of the assets array of a release document. -/
structure Asset where
  name : String
  browser_download_url : String
deriving DecidableEq, Repr

/-- A parsed release metadata document. -/
structure ReleaseDoc where
  tag_name : Option String
  assets : Option (List Asset)
deriving DecidableEq, Repr

/-- The optional extension group of the asset name pattern,
(?:\.[^\.]+)? applied with fullmatch: either empty, or a dot followed by
one or more characters none of which is a dot. -/
def extGroupOk : List Char → Bool
  | [] => true
  | '.' :: t => decide (t ≠ []) && t.all (fun c => decide (c ≠ '.'))
  | _ => false

/-- After the literal head winestreamproxy-, the rest of the name must be
m ++ ".x86_64.tar" ++ ext where m contains no newline (the regex dot does
not match a newline) and ext satisfies extGroupOk. -/
def tarTailMatch (r : List Char) : Bool :=
  (List.range (r.length + 1)).any fun i =>
    (r.take i).all (fun c => decide (c ≠ '\n'))
      && (".x86_64.tar".toList).isPrefixOf (r.drop i)
      && extGroupOk (r.drop (i + 11))

/-- Winestreamproxy._ASSET_NAME_REGEX.fullmatch on an asset name: the
regex is winestreamproxy-.*\.x86_64\.tar(?:\.[^\.]+)? anchored at both
ends. -/
def assetNameMatches (name : String) : Bool :=
  ("winestreamproxy-".toList).isPrefixOf name.toList
    && tarTailMatch (name.toList.drop 16)

/-- Winestreamproxy._get_download_url_from_json: scan the assets in order
and return the browser_download_url of the first name matching the
pattern; KeyError when the assets key is missing, ValueError when no
asset matches. -/
def get_download_url_from_json (data : ReleaseDoc) : Except Err String :=
  match data.assets with
  | none => Except.error (Err.keyError "assets")
  | some assets => firstMatch assets
where
  firstMatch : List Asset → Except Err String
    | [] => Except.error Err.valueError
    | a :: rest =>
      if assetNameMatches a.name then Except.ok a.browser_download_url
      else firstMatch rest

/-- Winestreamproxy._validate_release_info: evaluates data["tag_name"]
(KeyError when the key is missing; any present value, including the empty
string, passes) and then _get_download_url_from_json for its exceptions.
The Python function has no return statement, so it returns None on
success; the embedding returns Unit. -/
def validate_release_info (data : ReleaseDoc) : Except Err Unit :=
  match data.tag_name with
  | none => Except.error (Err.keyError "tag_name")
  | some _ =>
    match get_download_url_from_json data with
    | Except.error e => Except.error e
    | Except.ok _ => Except.ok ()

/-! ## The metadata cache (_download_latest_release_json)

The cache file runtime_subdir/latest.json is modelled by its own small
state: the raw bytes of a file are abstracted to either bytes that parse
as a release document or bytes that json.load rejects.  The HTTP
transport for the latest release endpoint is not part of src/ and the
spec treats it as a capability GET(url) returning bytes and json, so it
is an oracle in the environment. -/

/-- Abstracted raw bytes of the cache file. -/
inductive Bytes where
  | doc (d : ReleaseDoc)
  | invalid
deriving DecidableEq, Repr

/-- State of the cache file: absent (open raises FileNotFoundError),
existing but unreadable (open raises an OSError such as a permission
error), or readable with a modification time and contents. -/
inductive FileState where
  | absent
  | unreadableFile
  | file (mtime : Int) (content : Bytes)
deriving DecidableEq, Repr

deriving instance DecidableEq for Except

/-- Environment of one _download_latest_release_json run: the clock, the
cache file state, and the outcome of the metadata fetch. -/
structure Env where
  now : Int
  cache : FileState
  net : Except Err ReleaseDoc
deriving DecidableEq, Repr

/-- Result of a _download_latest_release_json run: the returned value or
raised exception, the cache file afterwards, and how many network
requests were made.  The Python function returns the parsed cache
document (a dict) on the cache paths and the result of
_validate_release_info (None) on the fresh fetch path, hence the
Option ReleaseDoc payload, where none is Python None. -/
structure DLOutcome where
  result : Except Err (Option ReleaseDoc)
  cacheAfter : FileState
  netCalls : Nat
deriving DecidableEq, Repr

/-- Winestreamproxy._CACHE_TIME. -/
def CACHE_TIME : Nat := 86400

/-- The stale fallback block at the end of _download_latest_release_json:
reopen the cache file; FileNotFoundError and OSError re-raise the saved
fetch or validation exception, while a readable file is parsed by
json.load, whose own JSONDecodeError is not caught and propagates. -/
def fallback_result (env : Env) (e : Err) : Except Err (Option ReleaseDoc) :=
  match env.cache with
  | FileState.file _ (Bytes.doc d) => Except.ok (some d)
  | FileState.file _ Bytes.invalid => Except.error Err.jsonDecodeError
  | FileState.absent => Except.error e
  | FileState.unreadableFile => Except.error e

/-- The fetch and validate block of _download_latest_release_json:
request.get(), _validate_release_info(request.json), then
safe_write_file(local_path, request.content) and return of the
validation result (None).  Any exception is caught and the stale
fallback runs.  The atomic cache write is modelled as succeeding, with
the fetched document as the new content and the current time as its
modification time. -/
def fetch_phase (env : Env) : DLOutcome :=
  match env.net with
  | Except.error e => ⟨fallback_result env e, env.cache, 1⟩
  | Except.ok doc =>
    match validate_release_info doc with
    | Except.error e => ⟨fallback_result env e, env.cache, 1⟩
    | Except.ok _ => ⟨Except.ok none, FileState.file env.now (Bytes.doc doc), 1⟩

/-- Winestreamproxy._download_latest_release_json.  The first block opens
the cache file and, when abs(time.time() - mtime) < _CACHE_TIME, returns
json.load of it (whose JSONDecodeError propagates, being neither
FileNotFoundError nor OSError); FileNotFoundError and OSError from the
open fall through to the fetch phase, as does a stale file. -/
def download_latest_release_json (env : Env) : DLOutcome :=
  match env.cache with
  | FileState.file m b =>
    if (env.now - m).natAbs < CACHE_TIME then
      match b with
      | Bytes.doc d => ⟨Except.ok (some d), env.cache, 0⟩
      | Bytes.invalid => ⟨Except.error Err.jsonDecodeError, env.cache, 0⟩
    else fetch_phase env
  | FileState.absent => fetch_phase env
  | FileState.unreadableFile => fetch_phase env

/-- True when the first block of _download_latest_release_json falls
through to the network fetch: the cache file is absent, unreadable, or
stale. -/
def reaches_fetch (env : Env) : Bool :=
  match env.cache with
  | FileState.file m _ => decide (¬ (env.now - m).natAbs < CACHE_TIME)
  | _ => true

/-- The exception the fetch and validate block saves when it fails:
the transport error, or the validation error of the fetched document. -/
def original_failure (env : Env) : Option Err :=
  match env.net with
  | Except.error e => some e
  | Except.ok doc =>
    match validate_release_info doc with
    | Except.error e => some e
    | Except.ok _ => none

/-- True when no asset name of the document matches the pattern (this
includes a missing assets key). -/
def no_matching_asset (doc : ReleaseDoc) : Bool :=
  match doc.assets with
  | none => true
  | some l => l.all fun a => !assetNameMatches a.name

end Discordipc

namespace Discordipc

/-! ## Concrete documents used by witnesses and counterexamples -/

/-- The metadata document of the spec scenario: its asset name
winestreamproxy-x86_64.tar.gz lacks the .x86_64.tar segment the
pattern requires (real asset names read winestreamproxy-0.2.0.x86_64.tar.gz). -/
def scenarioDoc : ReleaseDoc :=
  ⟨some "v1.2.0",
   some [⟨"winestreamproxy-x86_64.tar.gz", "https://example.invalid/v1.2.0.tar.gz"⟩]⟩

/-- A well formed document: tag v1.2.0 and an asset name matching the
pattern. -/
def docGood : ReleaseDoc :=
  ⟨some "v1.2.0",
   some [⟨"winestreamproxy-1.2.0.x86_64.tar.gz", "https://example.invalid/v1.2.0.tar.gz"⟩]⟩

/-- A document with an empty tag string and a matching asset. -/
def docEmptyTag : ReleaseDoc :=
  ⟨some "", some [⟨"winestreamproxy-1.2.0.x86_64.tar.gz", "u"⟩]⟩

/-- A document with a tag but no matching asset. -/
def docNoAsset : ReleaseDoc := ⟨some "v9", some []⟩


/-! ## Archive installation and promotion (download and its helpers)

The remaining functions act on the modelled filesystem.  Outcomes of the
external capabilities (archive GET, tar extraction, chmod, the rename of
the staging directory, and remove_folder during garbage collection) are
oracles in a TailEnv, so every theorem quantifies over their success or
failure. -/

/-- str.startswith, evaluated on the character lists so that it reduces
during kernel evaluation. -/
def str_startswith (pre s : String) : Bool := pre.toList.isPrefixOf s.toList

/-- Modelled from the spec: lutris.util.system.remove_folder is not under
src/; the spec describes it as removing a directory tree (StagingArtifact
discard and garbage collection).  It deletes the entry at the path. -/
def remove_folder (fs : FS) (p : Path) : FS := fsRemove fs p

/-- The staging directory tempfile.mkdtemp creates next to the target,
with a hidden name derived from the target name; the random suffix is
abstracted away, keeping the same parent and the dot marker. -/
def stagingPath (p : Path) : Path := dirname p ++ ["." ++ basename p]

/-- Outcomes of the external capabilities one download run consumes. -/
structure TailEnv where
  fetch : Except Err Unit
  extract : Except Err Unit
  chmod : Except Err Unit
  renameOutcome : Except Err Unit
  gcRemove : Except Err Unit
deriving DecidableEq, Repr

/-- WinestreamproxyUtils.download_and_extract_tar_file: create the
staging directory, download the archive, extract into the staging
directory, chmod it, and rename it onto extract_to; on any failure the
finally block removes the staging directory (the staging discard is
modelled as always completing, per the spec StagingArtifact contract).
The rename also fails when an entry already occupies extract_to, since
renaming a directory onto an existing file or symlink fails. -/
def download_and_extract_tar_file (tenv : TailEnv) (fs : FS) (extract_to : Path) :
    Except Err Unit × FS :=
  let staging := stagingPath extract_to
  let fs1 := fsSet fs staging Node.dir
  match tenv.fetch with
  | Except.error e => (Except.error e, remove_folder fs1 staging)
  | Except.ok _ =>
    match tenv.extract with
    | Except.error e => (Except.error e, remove_folder fs1 staging)
    | Except.ok _ =>
      match tenv.chmod with
      | Except.error e => (Except.error e, remove_folder fs1 staging)
      | Except.ok _ =>
        match tenv.renameOutcome with
        | Except.error e => (Except.error e, remove_folder fs1 staging)
        | Except.ok _ =>
          match fsGet fs1 extract_to with
          | some _ => (Except.error Err.fileExistsError, remove_folder fs1 staging)
          | none => (Except.ok (), fsSet (remove_folder fs1 staging) extract_to Node.dir)

/-- WinestreamproxyUtils.try_readlink: os.readlink, with FileNotFoundError
mapped to None; readlink of an existing non-link raises an OSError
(EINVAL), which the function does not catch.  Link targets are absolute
here, so the relative-target join is the identity. -/
def try_readlink (fs : FS) (p : Path) : Except Err (Option Path) :=
  match fsGet fs p with
  | none => Except.ok none
  | some (Node.symlink t) => Except.ok (some t)
  | some _ => Except.error Err.osError

/-- WinestreamproxyUtils.remove_if_exists: os.remove with only
FileNotFoundError treated as success; os.remove of a directory raises
IsADirectoryError, which is not caught. -/
def remove_if_exists (fs : FS) (p : Path) : Except Err FS :=
  match fsGet fs p with
  | none => Except.ok fs
  | some Node.dir => Except.error Err.isADirectoryError
  | some _ => Except.ok (fsRemove fs p)

/-- os.symlink: fails with FileExistsError when the name is taken. -/
def os_symlink (fs : FS) (target p : Path) : Except Err FS :=
  match fsGet fs p with
  | some _ => Except.error Err.fileExistsError
  | none => Except.ok (fsSet fs p (Node.symlink target))

/-- os.rename of a directory entry (used for the symlink swap): the
source must exist, and an existing destination is replaced atomically
unless it is a directory. -/
def os_rename_entry (fs : FS) (src dst : Path) : Except Err FS :=
  match fsGet fs src with
  | none => Except.error Err.fileNotFoundError
  | some n =>
    match fsGet fs dst with
    | some Node.dir => Except.error Err.isADirectoryError
    | _ => Except.ok (fsSet (fsRemove fs src) dst n)

/-- os.makedirs(runtime_subdir, exist_ok=True), as called before the
archive download; parents of the runtime root are taken as given. -/
def makedirs_runtime (fs : FS) : Except Err FS :=
  match fsGet fs runtime_subdir with
  | some Node.dir => Except.ok fs
  | none => Except.ok (fsSet fs runtime_subdir Node.dir)
  | some _ => Except.error Err.fileExistsError

/-- Result of the tail of Winestreamproxy.download: the outcome, the
filesystem, how many times download_and_extract_tar_file ran (the
network and extraction work), and a trace of the directories garbage
collection removed, each with the filesystem state in which the guarded
decision was taken. -/
structure TailOutcome where
  result : Except Err Unit
  fs : FS
  work : Nat
  gcRemoved : List (Path × FS)
deriving DecidableEq, Repr

/-- The conditional download block of Winestreamproxy.download (lines
195-199): skip everything when os.path.exists(extract_to); otherwise
resolve the asset url (ValueError propagates), ensure the runtime
directory, and run download_and_extract_tar_file. -/
def install_phase (tenv : TailEnv) (doc : ReleaseDoc) (fs : FS) (extract_to : Path) :
    Except Err Unit × FS × Nat :=
  if os_path_exists fs extract_to then (Except.ok (), fs, 0)
  else
    match get_download_url_from_json doc with
    | Except.error e => (Except.error e, fs, 0)
    | Except.ok _ =>
      match makedirs_runtime fs with
      | Except.error e => (Except.error e, fs, 0)
      | Except.ok fsm =>
        match download_and_extract_tar_file tenv fsm extract_to with
        | (Except.error e, fsx) => (Except.error e, fsx, 1)
        | (Except.ok _, fsx) => (Except.ok (), fsx, 1)

/-- The garbage collection block of Winestreamproxy.download (lines
211-217), evaluated after the repoint: with a previous link target
present, os.path.samefile(old_dir_realpath, extract_to) and
os.path.samefile(dirname(old_dir_realpath), runtime_subdir) may raise
(uncaught), the three guards short circuit in order, and only the
remove_folder call is inside the try whose failures are logged and
discarded. -/
def gc_phase (tenv : TailEnv) (fs5 : FS) (odr : Option Path) (extract_to : Path)
    (w : Nat) : TailOutcome :=
  match odr with
  | none => ⟨Except.ok (), fs5, w, []⟩
  | some p =>
    match samefile fs5 p extract_to with
    | Except.error e => ⟨Except.error e, fs5, w, []⟩
    | Except.ok true => ⟨Except.ok (), fs5, w, []⟩
    | Except.ok false =>
      match samefile fs5 (dirname p) runtime_subdir with
      | Except.error e => ⟨Except.error e, fs5, w, []⟩
      | Except.ok false => ⟨Except.ok (), fs5, w, []⟩
      | Except.ok true =>
        if str_startswith "extracted." (basename p) then
          match tenv.gcRemove with
          | Except.ok _ => ⟨Except.ok (), remove_folder fs5 p, w, [(p, fs5)]⟩
          | Except.error _ => ⟨Except.ok (), fs5, w, []⟩
        else ⟨Except.ok (), fs5, w, []⟩

/-- The tail of Winestreamproxy.download (lines 191-217), acting on an
already parsed release document: derive extract_to from the tag
(KeyError when tag_name is missing), install when absent, read the
current link, return early when it already points at extract_to,
remember the old target and its realpath, clear and recreate the
tag-qualified temporary link, atomically rename it onto the canonical
link, and garbage collect the superseded directory. -/
def download_tail (tenv : TailEnv) (doc : ReleaseDoc) (fs : FS) : TailOutcome :=
  match doc.tag_name with
  | none => ⟨Except.error (Err.keyError "tag_name"), fs, 0, []⟩
  | some tag =>
    let extract_to := runtime_subdir ++ ["extracted." ++ tag]
    let temp := runtime_subdir ++ ["latest." ++ tag]
    match install_phase tenv doc fs extract_to with
    | (Except.error e, fsi, w) => ⟨Except.error e, fsi, w, []⟩
    | (Except.ok _, fs2, w) =>
      match try_readlink fs2 latest_release_path with
      | Except.error e => ⟨Except.error e, fs2, w, []⟩
      | Except.ok old_dir =>
        if old_dir = some extract_to then ⟨Except.ok (), fs2, w, []⟩
        else
          let odr := old_dir.map fun p => realpath fs2 p
          match remove_if_exists fs2 temp with
          | Except.error e => ⟨Except.error e, fs2, w, []⟩
          | Except.ok fs3 =>
            match os_symlink fs3 extract_to temp with
            | Except.error e => ⟨Except.error e, fs3, w, []⟩
            | Except.ok fs4 =>
              match os_rename_entry fs4 temp latest_release_path with
              | Except.error e => ⟨Except.error e, fs4, w, []⟩
              | Except.ok fs5 => gc_phase tenv fs5 odr extract_to w

/-- json.loads applied at line 190 to the return value of
_download_latest_release_json.  That value is either None (the fresh
fetch path, since _validate_release_info returns None) or an already
parsed document (the cache paths); json.loads accepts only str, bytes or
bytearray and raises TypeError on both.  (The sole loophole, a cache
file containing a doubly encoded JSON string, is excluded from the
model: the code only ever writes the raw API response, a JSON object.) -/
def json_loads_value : Option ReleaseDoc → Except Err ReleaseDoc
  | _ => Except.error Err.typeError

/-- Result of the download entry point. -/
structure DownloadOutcome where
  result : Except Err Unit
  fs : FS
  cacheAfter : FileState
  netCalls : Nat
  work : Nat
deriving DecidableEq, Repr

/-- Winestreamproxy.download: metadata acquisition, then
json.loads(cls._download_latest_release_json()), then the tail. -/
def download (env : Env) (tenv : TailEnv) (fs : FS) : DownloadOutcome :=
  let o := download_latest_release_json env
  match o.result with
  | Except.error e => ⟨Except.error e, fs, o.cacheAfter, o.netCalls, 0⟩
  | Except.ok v =>
    match json_loads_value v with
    | Except.error e => ⟨Except.error e, fs, o.cacheAfter, o.netCalls, 0⟩
    | Except.ok doc =>
      let t := download_tail tenv doc fs
      ⟨t.result, t.fs, o.cacheAfter, o.netCalls, t.work⟩


/-! ## Concrete filesystem states and environments -/

/-- A filesystem holding only the runtime directories. -/
def rootFs : FS := [(RUNTIME_DIR, Node.dir), (runtime_subdir, Node.dir)]

/-- All external capabilities succeed. -/
def tenvOk : TailEnv :=
  ⟨Except.ok (), Except.ok (), Except.ok (), Except.ok (), Except.ok ()⟩

/-- A minimal document with tag v2 (assets irrelevant once the versioned
directory exists). -/
def docV2 : ReleaseDoc := ⟨some "v2", some []⟩

/-- extracted.v2 installed, and a leftover directory at the temporary
link name latest.v2. -/
def fsTempDir : FS :=
  rootFs ++ [(runtime_subdir ++ ["extracted.v2"], Node.dir),
             (runtime_subdir ++ ["latest.v2"], Node.dir)]

/-- extracted.v2 installed, and a leftover symlink from a crashed run at
the temporary link name latest.v2. -/
def fsTempLink : FS :=
  rootFs ++ [(runtime_subdir ++ ["extracted.v2"], Node.dir),
             (runtime_subdir ++ ["latest.v2"],
              Node.symlink (runtime_subdir ++ ["extracted.stale"]))]

/-- extracted.v2 installed, and the active link dangling: it points at
extracted.old, which does not exist. -/
def fsDangling : FS :=
  rootFs ++ [(runtime_subdir ++ ["extracted.v2"], Node.dir),
             (latest_release_path,
              Node.symlink (runtime_subdir ++ ["extracted.old"]))]

/-- extracted.v2 installed next to the currently active extracted.v1. -/
def fsOldVersion : FS :=
  rootFs ++ [(runtime_subdir ++ ["extracted.v2"], Node.dir),
             (runtime_subdir ++ ["extracted.v1"], Node.dir),
             (latest_release_path,
              Node.symlink (runtime_subdir ++ ["extracted.v1"]))]

/-- extracted.v2 installed and already active. -/
def fsActiveV2 : FS :=
  rootFs ++ [(runtime_subdir ++ ["extracted.v2"], Node.dir),
             (latest_release_path,
              Node.symlink (runtime_subdir ++ ["extracted.v2"]))]

/-- Replace only the garbage collection outcome of an environment. -/
def withGC (tenv : TailEnv) (g : Except Err Unit) : TailEnv :=
  ⟨tenv.fetch, tenv.extract, tenv.chmod, tenv.renameOutcome, g⟩

/-- The prefixes of the runtime subdirectory are real directories, not
symlinks: the runtime root is canonical.  The promotion steps all act on
children of this root, so this is the administrative invariant under
which path resolution below the root is the identity. -/
def canonicalRoot (fs : FS) : Prop :=
  fsGet fs RUNTIME_DIR = some Node.dir ∧ fsGet fs runtime_subdir = some Node.dir

instance (fs : FS) : Decidable (canonicalRoot fs) := by
  unfold canonicalRoot
  infer_instance


/-! ## Lemmas about the filesystem model -/

@[simp] theorem fsGet_nil (p : Path) : fsGet [] p = none := rfl

theorem fsGet_fsRemove (fs : FS) (p q : Path) :
    fsGet (fsRemove fs p) q = if p = q then none else fsGet fs q := by
  induction fs with
  | nil => simp [fsRemove]
  | cons hd tl ih =>
    obtain ⟨r, n⟩ := hd
    by_cases hrp : r = p
    · have hred : fsRemove ((r, n) :: tl) p = fsRemove tl p := by
        simp [fsRemove, hrp]
      rw [hred, ih]
      by_cases hpq : p = q
      · simp [hpq]
      · have hrq : r ≠ q := fun h => hpq (hrp ▸ h)
        simp [fsGet, hpq, hrq]
    · have hred : fsRemove ((r, n) :: tl) p = (r, n) :: fsRemove tl p := by
        simp [fsRemove, hrp]
      rw [hred]
      by_cases hrq : r = q
      · have hpq : p ≠ q := fun h => hrp (by rw [h, hrq])
        simp [fsGet, hrq, hpq]
      · simp [fsGet, hrq, ih]

@[simp] theorem fsGet_fsRemove_self (fs : FS) (p : Path) :
    fsGet (fsRemove fs p) p = none := by
  simp [fsGet_fsRemove]

theorem fsGet_fsRemove_ne (fs : FS) (p q : Path) (h : p ≠ q) :
    fsGet (fsRemove fs p) q = fsGet fs q := by
  simp [fsGet_fsRemove, h]

@[simp] theorem fsGet_fsSet_self (fs : FS) (p : Path) (n : Node) :
    fsGet (fsSet fs p n) p = some n := by
  simp [fsSet, fsGet]

theorem fsGet_fsSet_ne (fs : FS) (p q : Path) (n : Node) (h : p ≠ q) :
    fsGet (fsSet fs p n) q = fsGet fs q := by
  show (if p = q then some n else fsGet (fsRemove fs p) q) = fsGet fs q
  rw [if_neg h, fsGet_fsRemove, if_neg h]

/-! ## Lemmas about the metadata cache -/

theorem firstMatch_error (l : List Asset)
    (h : (l.all fun a => !assetNameMatches a.name) = true) :
    get_download_url_from_json.firstMatch l = Except.error Err.valueError := by
  induction l with
  | nil => rfl
  | cons a rest ih =>
    rw [List.all_cons, Bool.and_eq_true] at h
    have hm : assetNameMatches a.name = false := by
      cases hx : assetNameMatches a.name
      · rfl
      · rw [hx] at h; exact absurd h.1 (by decide)
    simp [get_download_url_from_json.firstMatch, hm, ih h.2]

/-- The stale fallback never produces the fresh path value None. -/
theorem fallback_result_ne_ok_none (env : Env) (e : Err) :
    fallback_result env e ≠ Except.ok none := by
  cases hc : env.cache with
  | absent => simp [fallback_result, hc]
  | unreadableFile => simp [fallback_result, hc]
  | file m b => cases b <;> simp [fallback_result, hc]

theorem dl_reaches_fetch (env : Env) (hr : reaches_fetch env = true) :
    download_latest_release_json env = fetch_phase env := by
  cases hc : env.cache with
  | absent => simp [download_latest_release_json, hc]
  | unreadableFile => simp [download_latest_release_json, hc]
  | file m b =>
    have hs : ¬ (env.now - m).natAbs < CACHE_TIME := by
      rw [reaches_fetch, hc] at hr
      exact of_decide_eq_true hr
    simp [download_latest_release_json, hc, hs]

theorem fetch_phase_failure (env : Env) (e : Err)
    (he : original_failure env = some e) :
    fetch_phase env = ⟨fallback_result env e, env.cache, 1⟩ := by
  cases hn : env.net with
  | error e2 =>
    have : e2 = e := by
      rw [original_failure, hn] at he
      exact Option.some_injective _ he
    rw [fetch_phase, hn, this]
  | ok doc =>
    cases hv : validate_release_info doc with
    | error e2 =>
      have : e2 = e := by
        simpa [original_failure, hn, hv] using he
      simp [fetch_phase, hn, hv, this]
    | ok u =>
      exfalso
      simp [original_failure, hn, hv] at he

/-! ## Claims about the metadata cache -/

/-- C2: when no fresh cache is available, the fetch succeeds and the
document validates, the code does persist the raw response to the cache
file, but it returns the result of _validate_release_info, which is
None, not the parsed metadata: data = cls._validate_release_info(request.json)
binds None.  The claim says the parsed metadata is returned; the code
slips.  At the concrete input (no cache, successful fetch of docGood)
the run writes the cache and returns None. -/
theorem c2_persists_but_returns_none :
    download_latest_release_json ⟨1000, FileState.absent, Except.ok docGood⟩
      = ⟨Except.ok none, FileState.file 1000 (Bytes.doc docGood), 1⟩ := by
  rfl

/-- C3 counterexample: the claim states the original fetch failure is
raised if and only if no cached file exists to fall back to.  Here a
cache file exists but its open raises an OSError (for example a
permission error), the fetch fails, and the code still raises the
original fetch failure, refuting the only-if direction at this concrete
input. -/
theorem c3_counterexample :
    (download_latest_release_json
        ⟨0, FileState.unreadableFile, Except.error Err.fetchError⟩).result
      = Except.error Err.fetchError
    ∧ (⟨0, FileState.unreadableFile, Except.error Err.fetchError⟩ : Env).cache
        ≠ FileState.absent :=
  ⟨rfl, by decide⟩

/-- C3 amended: on a run that reaches the fetch and whose fetch or
validation fails, a readable cache file that parses is returned
regardless of age; the original failure propagates exactly when the
cache file is absent or exists but cannot be opened; a readable cache
file that does not parse propagates the json.load error instead; and
nothing is written to the cache file. -/
theorem c3_stale_fallback (env : Env) (e : Err)
    (hr : reaches_fetch env = true) (he : original_failure env = some e) :
    (∀ m d, env.cache = FileState.file m (Bytes.doc d) →
        (download_latest_release_json env).result = Except.ok (some d))
    ∧ ((env.cache = FileState.absent ∨ env.cache = FileState.unreadableFile) →
        (download_latest_release_json env).result = Except.error e)
    ∧ (∀ m, env.cache = FileState.file m Bytes.invalid →
        (download_latest_release_json env).result = Except.error Err.jsonDecodeError)
    ∧ (download_latest_release_json env).cacheAfter = env.cache := by
  rw [dl_reaches_fetch env hr, fetch_phase_failure env e he]
  refine ⟨?_, ?_, ?_, rfl⟩
  · intro m d hc
    simp [fallback_result, hc]
  · intro hc
    rcases hc with hc | hc <;> simp [fallback_result, hc]
  · intro m hc
    simp [fallback_result, hc]

/-- C3 witness: a stale but readable cache with a failing fetch returns
the cached document. -/
theorem c3_stale_fallback_witness :
    reaches_fetch ⟨200000, FileState.file 0 (Bytes.doc docGood), Except.error Err.fetchError⟩ = true
    ∧ (download_latest_release_json
        ⟨200000, FileState.file 0 (Bytes.doc docGood), Except.error Err.fetchError⟩).result
      = Except.ok (some docGood) :=
  ⟨by decide,
   (c3_stale_fallback ⟨200000, FileState.file 0 (Bytes.doc docGood), Except.error Err.fetchError⟩
      Err.fetchError (by decide) rfl).1 0 docGood rfl⟩

/-- C4: a cache file whose modification time is within 24 hours of the
clock in absolute value (so a future timestamp also counts as fresh) is
parsed and returned with zero network requests. -/
theorem c4_fresh_cache_no_network (env : Env) (m : Int) (d : ReleaseDoc)
    (hc : env.cache = FileState.file m (Bytes.doc d))
    (hf : (env.now - m).natAbs < CACHE_TIME) :
    download_latest_release_json env = ⟨Except.ok (some d), env.cache, 0⟩ := by
  simp [download_latest_release_json, hc, hf]

/-- C4 witness: a cache file dated 100 seconds in the future of a clock
at 0 is fresh, is returned, and no network request happens. -/
theorem c4_fresh_cache_no_network_witness :
    ((0 : Int) - 100).natAbs < CACHE_TIME
    ∧ download_latest_release_json
        ⟨0, FileState.file 100 (Bytes.doc docGood), Except.error Err.fetchError⟩
      = ⟨Except.ok (some docGood), FileState.file 100 (Bytes.doc docGood), 0⟩ :=
  ⟨by decide,
   c4_fresh_cache_no_network
     ⟨0, FileState.file 100 (Bytes.doc docGood), Except.error Err.fetchError⟩
     100 docGood rfl (by decide)⟩

/-- C9 counterexample: validation is claimed to reject every document
whose tag is empty, yet _validate_release_info only evaluates
data["tag_name"], so the empty tag passes, and with an absent cache the
fetched document is even persisted to the cache file. -/
theorem c9_counterexample :
    docEmptyTag.tag_name = some ""
    ∧ validate_release_info docEmptyTag = Except.ok ()
    ∧ (download_latest_release_json ⟨0, FileState.absent, Except.ok docEmptyTag⟩).cacheAfter
        = FileState.file 0 (Bytes.doc docEmptyTag) :=
  ⟨rfl, rfl, rfl⟩

/-- C9 amended: validation rejects a document whose tag_name key is
missing and a document with no asset name matching the pattern (an empty
tag string, however, is accepted).  Such a document is never written to
the cache file, and the run degenerates to the stale fallback, so the
fetched document itself is never the value handed back on the fresh
path. -/
theorem c9_invalid_not_used (env : Env) (doc : ReleaseDoc)
    (hn : env.net = Except.ok doc) (hr : reaches_fetch env = true)
    (hbad : doc.tag_name = none ∨ no_matching_asset doc = true) :
    (∃ e, validate_release_info doc = Except.error e
        ∧ (download_latest_release_json env).result = fallback_result env e)
    ∧ (download_latest_release_json env).cacheAfter = env.cache
    ∧ (download_latest_release_json env).result ≠ Except.ok none := by
  have hval : ∃ e, validate_release_info doc = Except.error e := by
    rcases hbad with htag | hassets
    · exact ⟨Err.keyError "tag_name", by simp [validate_release_info, htag]⟩
    · cases htag : doc.tag_name with
      | none => exact ⟨Err.keyError "tag_name", by simp [validate_release_info, htag]⟩
      | some t =>
        cases ha : doc.assets with
        | none =>
          refine ⟨Err.keyError "assets", ?_⟩
          simp [validate_release_info, htag, get_download_url_from_json, ha]
        | some l =>
          refine ⟨Err.valueError, ?_⟩
          rw [no_matching_asset, ha] at hassets
          simp [validate_release_info, htag, get_download_url_from_json, ha,
            firstMatch_error l hassets]
  obtain ⟨e, hv⟩ := hval
  have he : original_failure env = some e := by
    simp [original_failure, hn, hv]
  have hfe : fetch_phase env = ⟨fallback_result env e, env.cache, 1⟩ :=
    fetch_phase_failure env e he
  rw [dl_reaches_fetch env hr, hfe]
  exact ⟨⟨e, hv, rfl⟩, rfl, fallback_result_ne_ok_none env e⟩

/-- C9 witness: a document with no matching asset, fetched with no cache
present, is not cached and the call fails rather than returning it. -/
theorem c9_invalid_not_used_witness :
    no_matching_asset docNoAsset = true
    ∧ (download_latest_release_json ⟨0, FileState.absent, Except.ok docNoAsset⟩).cacheAfter
        = FileState.absent
    ∧ (download_latest_release_json ⟨0, FileState.absent, Except.ok docNoAsset⟩).result
        ≠ Except.ok none :=
  ⟨by decide,
   (c9_invalid_not_used ⟨0, FileState.absent, Except.ok docNoAsset⟩ docNoAsset rfl
      (by decide) (Or.inr (by decide))).2.1,
   (c9_invalid_not_used ⟨0, FileState.absent, Except.ok docNoAsset⟩ docNoAsset rfl
      (by decide) (Or.inr (by decide))).2.2⟩


/-! ## Lemmas about promotion -/

theorem samefile_ok_true (fs : FS) (a b : Path)
    (h : samefile fs a b = Except.ok true) : realpath fs a = realpath fs b := by
  unfold samefile at h
  split at h
  · injection h with h2
    exact of_decide_eq_true h2
  · exact absurd h (by simp)

theorem samefile_ok_false (fs : FS) (a b : Path)
    (h : samefile fs a b = Except.ok false) : realpath fs a ≠ realpath fs b := by
  unfold samefile at h
  split at h
  · injection h with h2
    exact of_decide_eq_false h2
  · exact absurd h (by simp)

theorem string_length_append (s t : String) : (s ++ t).length = s.length + t.length := by
  show (s.data ++ t.data).length = s.data.length + t.data.length
  exact List.length_append s.data t.data

theorem dot_append_ne (b : String) : "." ++ b ≠ b := by
  intro h
  have hl := congrArg String.length h
  rw [string_length_append] at hl
  have : ("." : String).length = 1 := rfl
  omega

theorem stagingPath_ne (p : Path) : stagingPath p ≠ p := by
  intro h
  cases p with
  | nil => simp [stagingPath, dirname, basename] at h
  | cons a as =>
    have hne : a :: as ≠ ([] : Path) := by simp
    have h1 : (stagingPath (a :: as)).getLast? = some ("." ++ basename (a :: as)) := by
      simp [stagingPath, List.getLast?_concat]
    rw [h] at h1
    have h2 : (a :: as).getLast? = some ((a :: as).getLast hne) :=
      List.getLast?_eq_getLast _ hne
    have h3 : basename (a :: as) = (a :: as).getLast hne := by
      simp [basename, List.getLastD_eq_getLast?, h2]
    rw [h2, h3] at h1
    exact dot_append_ne _ (Option.some_injective _ h1.symm)

/-! ## Claims about installation and promotion -/

/-- C1: the spec scenario claims that download succeeds on the metadata
document with tag v1.2.0 and asset winestreamproxy-x86_64.tar.gz,
installing into extracted.v1.2.0.  On the code, that asset name does not
match _ASSET_NAME_REGEX (it lacks the .x86_64.tar segment), validation
fails, there is no cache to fall back to, and download raises ValueError
leaving the filesystem untouched.  Moreover even a document whose asset
name does match (docGood) cannot be installed: _download_latest_release_json
then returns None (the result of _validate_release_info), json.loads at
line 190 receives a non string and download raises TypeError.  The entry
point cannot succeed for any metadata. -/
theorem c1_download_cannot_succeed :
    (download ⟨0, FileState.absent, Except.ok scenarioDoc⟩ tenvOk rootFs).result
        = Except.error Err.valueError
    ∧ (download ⟨0, FileState.absent, Except.ok scenarioDoc⟩ tenvOk rootFs).fs = rootFs
    ∧ (download ⟨0, FileState.absent, Except.ok docGood⟩ tenvOk rootFs).result
        = Except.error Err.typeError :=
  ⟨rfl, rfl, rfl⟩

/-- C5: when the archive download, the extraction, the chmod, or the
final rename fails, download_and_extract_tar_file removes the staging
directory and, provided nothing occupied the final target name before
the call, leaves no entry at the final target name either. -/
theorem c5_failed_install_leaves_nothing (tenv : TailEnv) (fs : FS)
    (extract_to : Path) (e : Err)
    (h0 : fsGet fs extract_to = none)
    (he : (download_and_extract_tar_file tenv fs extract_to).fst = Except.error e) :
    fsGet (download_and_extract_tar_file tenv fs extract_to).snd
        (stagingPath extract_to) = none
    ∧ fsGet (download_and_extract_tar_file tenv fs extract_to).snd extract_to = none := by
  have hs := stagingPath_ne extract_to
  have hclean :
      fsGet (remove_folder (fsSet fs (stagingPath extract_to) Node.dir)
          (stagingPath extract_to)) (stagingPath extract_to) = none
      ∧ fsGet (remove_folder (fsSet fs (stagingPath extract_to) Node.dir)
          (stagingPath extract_to)) extract_to = none := by
    constructor
    · simp [remove_folder]
    · rw [remove_folder, fsGet_fsRemove_ne _ _ _ hs, fsGet_fsSet_ne _ _ _ _ hs]
      exact h0
  unfold download_and_extract_tar_file
  unfold download_and_extract_tar_file at he
  cases hf : tenv.fetch with
  | error e1 => simpa [hf] using hclean
  | ok u1 =>
    cases hx : tenv.extract with
    | error e1 => simpa [hf, hx] using hclean
    | ok u2 =>
      cases hc : tenv.chmod with
      | error e1 => simpa [hf, hx, hc] using hclean
      | ok u3 =>
        cases hr : tenv.renameOutcome with
        | error e1 => simpa [hf, hx, hc, hr] using hclean
        | ok u4 =>
          exfalso
          have hocc : fsGet (fsSet fs (stagingPath extract_to) Node.dir) extract_to
              = none := by
            rw [fsGet_fsSet_ne _ _ _ _ hs]
            exact h0
          simp [hf, hx, hc, hr, hocc] at he

/-- C5 witness: a failing extraction with an absent target leaves
neither the staging directory nor the target. -/
theorem c5_failed_install_leaves_nothing_witness :
    fsGet rootFs (runtime_subdir ++ ["extracted.v2"]) = none
    ∧ (download_and_extract_tar_file
        ⟨Except.ok (), Except.error Err.extractionError, Except.ok (), Except.ok (),
         Except.ok ()⟩ rootFs (runtime_subdir ++ ["extracted.v2"])).fst
      = Except.error Err.extractionError
    ∧ fsGet (download_and_extract_tar_file
        ⟨Except.ok (), Except.error Err.extractionError, Except.ok (), Except.ok (),
         Except.ok ()⟩ rootFs (runtime_subdir ++ ["extracted.v2"])).snd
        (stagingPath (runtime_subdir ++ ["extracted.v2"])) = none
    ∧ fsGet (download_and_extract_tar_file
        ⟨Except.ok (), Except.error Err.extractionError, Except.ok (), Except.ok (),
         Except.ok ()⟩ rootFs (runtime_subdir ++ ["extracted.v2"])).snd
        (runtime_subdir ++ ["extracted.v2"]) = none :=
  ⟨rfl, rfl,
   (c5_failed_install_leaves_nothing
      ⟨Except.ok (), Except.error Err.extractionError, Except.ok (), Except.ok (),
       Except.ok ()⟩ rootFs (runtime_subdir ++ ["extracted.v2"]) Err.extractionError
      (by decide) (by decide)).1,
   (c5_failed_install_leaves_nothing
      ⟨Except.ok (), Except.error Err.extractionError, Except.ok (), Except.ok (),
       Except.ok ()⟩ rootFs (runtime_subdir ++ ["extracted.v2"]) Err.extractionError
      (by decide) (by decide)).2⟩

/-- C10 counterexample: the claim states any existing entry at the
temporary link name is removed and a pre-existing latest.<tag> entry
never causes promotion to fail; but remove_if_exists only swallows
FileNotFoundError, and os.remove of a directory raises
IsADirectoryError, so a directory left at latest.v2 makes the otherwise
benign run fail (the same state with a symlink there succeeds). -/
theorem c10_counterexample :
    fsGet fsTempDir (runtime_subdir ++ ["latest.v2"]) = some Node.dir
    ∧ (download_tail tenvOk docV2 fsTempDir).result = Except.error Err.isADirectoryError
    ∧ (download_tail tenvOk docV2 fsTempLink).result = Except.ok () :=
  ⟨rfl, rfl, rfl⟩

/-- C10 amended: before creating the temporary symlink, any existing
non directory entry at latest.<tag> is removed, an absent entry counts
as success, and such a leftover (in particular the symlink an earlier
crashed run would have left) never makes the removal step fail; a
pre-existing directory at that name, however, raises IsADirectoryError. -/
theorem c10_remove_if_exists_tolerates (fs : FS) (p : Path)
    (h : fsGet fs p ≠ some Node.dir) :
    ∃ fs2, remove_if_exists fs p = Except.ok fs2
      ∧ fsGet fs2 p = none
      ∧ ∀ q, q ≠ p → fsGet fs2 q = fsGet fs q := by
  cases hg : fsGet fs p with
  | none =>
    refine ⟨fs, ?_, hg, fun q _ => rfl⟩
    simp [remove_if_exists, hg]
  | some n =>
    cases n with
    | file =>
      refine ⟨fsRemove fs p, ?_, by simp, fun q hq => fsGet_fsRemove_ne _ _ _ (Ne.symm hq)⟩
      simp [remove_if_exists, hg]
    | dir => exact absurd hg h
    | symlink t =>
      refine ⟨fsRemove fs p, ?_, by simp, fun q hq => fsGet_fsRemove_ne _ _ _ (Ne.symm hq)⟩
      simp [remove_if_exists, hg]

/-- C10 amended witness: the leftover symlink at latest.v2 is removed
and everything else is untouched. -/
theorem c10_remove_if_exists_tolerates_witness :
    fsGet fsTempLink (runtime_subdir ++ ["latest.v2"]) ≠ some Node.dir
    ∧ ∃ fs2, remove_if_exists fsTempLink (runtime_subdir ++ ["latest.v2"]) = Except.ok fs2
        ∧ fsGet fs2 (runtime_subdir ++ ["latest.v2"]) = none
        ∧ ∀ q, q ≠ runtime_subdir ++ ["latest.v2"] → fsGet fs2 q = fsGet fsTempLink q :=
  ⟨by decide, c10_remove_if_exists_tolerates fsTempLink _ (by decide)⟩

/-- C7 counterexample: with the previous link target dangling (pointing
at the absent extracted.old), the run repoints the active link at
extracted.v2 and then raises FileNotFoundError out of
os.path.samefile(old_dir_realpath, extract_to), which line 211 evaluates
outside the try block: an error arising while deciding on garbage
collection is not caught, and promotion fails after the link was
already repointed, contradicting the claim. -/
theorem c7_counterexample :
    (download_tail tenvOk docV2 fsDangling).result = Except.error Err.fileNotFoundError
    ∧ fsGet (download_tail tenvOk docV2 fsDangling).fs latest_release_path
        = some (Node.symlink (runtime_subdir ++ ["extracted.v2"])) :=
  ⟨rfl, rfl⟩



theorem gc_phase_removed (tenv : TailEnv) (fs5 : FS) (odr : Option Path)
    (extract_to : Path) (w : Nat) (p : Path) (s : FS)
    (h : (p, s) ∈ (gc_phase tenv fs5 odr extract_to w).gcRemoved) :
    s = fs5
    ∧ samefile fs5 p extract_to = Except.ok false
    ∧ samefile fs5 (dirname p) runtime_subdir = Except.ok true
    ∧ str_startswith "extracted." (basename p) = true := by
  cases odr with
  | none => simp [gc_phase] at h
  | some q =>
    simp only [gc_phase] at h
    cases h1 : samefile fs5 q extract_to with
    | error e => simp [h1] at h
    | ok b =>
      cases b with
      | true => simp [h1] at h
      | false =>
        cases h2 : samefile fs5 (dirname q) runtime_subdir with
        | error e => simp [h1, h2] at h
        | ok b2 =>
          cases b2 with
          | false => simp [h1, h2] at h
          | true =>
            cases h3 : str_startswith "extracted." (basename q) with
            | false => simp [h1, h2, h3] at h
            | true =>
              cases hg : tenv.gcRemove with
              | error e => simp [h1, h2, h3, hg] at h
              | ok u =>
                simp [h1, h2, h3, hg] at h
                obtain ⟨hp, hs⟩ := h
                subst hp
                subst hs
                exact ⟨rfl, h1, h2, h3⟩

/-- C6: whenever the tail of download removes a directory p (deciding in
state s), the three guards of line 211 held: p is not the new version, p
resolves (samefile succeeded), the resolved parent of p is the runtime
subdirectory, and the name of p carries the extracted. marker.  In
particular, when the runtime root is canonical in s, the resolved parent
of the deleted directory is exactly the runtime subdirectory, no matter
where a tampered previous link target pointed. -/
theorem c6_gc_only_inside_runtime (tenv : TailEnv) (doc : ReleaseDoc) (fs : FS)
    (p : Path) (s : FS)
    (h : (p, s) ∈ (download_tail tenv doc fs).gcRemoved) :
    str_startswith "extracted." (basename p) = true
    ∧ samefile s (dirname p) runtime_subdir = Except.ok true
    ∧ (realpath s runtime_subdir = runtime_subdir →
        realpath s (dirname p) = runtime_subdir) := by
  cases htag : doc.tag_name with
  | none => simp [download_tail, htag] at h
  | some tag =>
    simp only [download_tail, htag] at h
    rcases hi : install_phase tenv doc fs (runtime_subdir ++ ["extracted." ++ tag])
      with ⟨r, fsi, w⟩
    rw [hi] at h
    cases r with
    | error e => simp at h
    | ok u =>
      cases hrl : try_readlink fsi latest_release_path with
      | error e => simp [hrl] at h
      | ok old_dir =>
        by_cases hol : old_dir = some (runtime_subdir ++ ["extracted." ++ tag])
        · simp [hrl, hol] at h
        · simp only [hrl, if_neg hol] at h
          cases hre : remove_if_exists fsi (runtime_subdir ++ ["latest." ++ tag]) with
          | error e => simp [hre] at h
          | ok fs3 =>
            cases hsl : os_symlink fs3 (runtime_subdir ++ ["extracted." ++ tag])
                (runtime_subdir ++ ["latest." ++ tag]) with
            | error e => simp [hre, hsl] at h
            | ok fs4 =>
              cases hrn : os_rename_entry fs4 (runtime_subdir ++ ["latest." ++ tag])
                  latest_release_path with
              | error e => simp [hre, hsl, hrn] at h
              | ok fs5 =>
                simp only [hre, hsl, hrn] at h
                obtain ⟨hs, hsf1, hsf2, hpref⟩ :=
                  gc_phase_removed tenv fs5 _ _ w p s h
                subst hs
                refine ⟨hpref, hsf2, fun hcan => ?_⟩
                have hrp := samefile_ok_true _ _ _ hsf2
                rw [hcan] at hrp
                exact hrp

/-- C6 witness: superseding extracted.v1 by extracted.v2 removes exactly
extracted.v1, whose resolved parent is the runtime subdirectory and
whose name carries the extracted. marker. -/
theorem c6_gc_only_inside_runtime_witness :
    (download_tail tenvOk docV2 fsOldVersion).gcRemoved.map Prod.fst
        = [runtime_subdir ++ ["extracted.v1"]]
    ∧ (let pr := (download_tail tenvOk docV2 fsOldVersion).gcRemoved.headD ([], []);
       str_startswith "extracted." (basename pr.fst) = true
       ∧ samefile pr.snd (dirname pr.fst) runtime_subdir = Except.ok true
       ∧ (realpath pr.snd runtime_subdir = runtime_subdir →
           realpath pr.snd (dirname pr.fst) = runtime_subdir)) :=
  ⟨by decide,
   c6_gc_only_inside_runtime tenvOk docV2 fsOldVersion
     ((download_tail tenvOk docV2 fsOldVersion).gcRemoved.headD ([], [])).fst
     ((download_tail tenvOk docV2 fsOldVersion).gcRemoved.headD ([], [])).snd
     (by decide)⟩

theorem gc_phase_gc_independent (t1 t2 : TailEnv) (fs5 : FS) (odr : Option Path)
    (et : Path) (w : Nat) :
    (gc_phase t1 fs5 odr et w).result = (gc_phase t2 fs5 odr et w).result
    ∧ (gc_phase t1 fs5 odr et w).work = (gc_phase t2 fs5 odr et w).work := by
  cases odr with
  | none => exact ⟨rfl, rfl⟩
  | some q =>
    unfold gc_phase
    cases h1 : samefile fs5 q et with
    | error e => simp [h1]
    | ok b =>
      cases b with
      | true => simp [h1]
      | false =>
        cases h2 : samefile fs5 (dirname q) runtime_subdir with
        | error e => simp [h1, h2]
        | ok b2 =>
          cases b2 with
          | false => simp [h1, h2]
          | true =>
            cases h3 : str_startswith "extracted." (basename q) with
            | false => simp [h1, h2, h3]
            | true =>
              cases hg1 : t1.gcRemove <;> cases hg2 : t2.gcRemove <;>
                simp [h1, h2, h3, hg1, hg2]

/-- C7 amended: errors while performing the removal of the superseded
directory are caught and discarded: the result and the amount of
network and extraction work of the download tail do not depend on the
remove_folder outcome at all.  (The deciding step is different: as the
counterexample shows, a previous link target that no longer resolves
makes the samefile check raise after the repoint.) -/
theorem c7_gc_outcome_irrelevant (tenv : TailEnv) (g1 g2 : Except Err Unit)
    (doc : ReleaseDoc) (fs : FS) :
    (download_tail (withGC tenv g1) doc fs).result
        = (download_tail (withGC tenv g2) doc fs).result
    ∧ (download_tail (withGC tenv g1) doc fs).work
        = (download_tail (withGC tenv g2) doc fs).work := by
  have hinst : install_phase (withGC tenv g1) = install_phase (withGC tenv g2) := by
    funext doc2 fs2 et
    rfl
  cases htag : doc.tag_name with
  | none => simp [download_tail, htag]
  | some tag =>
    simp only [download_tail, htag, hinst]
    rcases hi : install_phase (withGC tenv g2) doc fs (runtime_subdir ++ ["extracted." ++ tag])
      with ⟨r, fsi, w⟩
    cases r with
    | error e => exact ⟨rfl, rfl⟩
    | ok u =>
      cases hrl : try_readlink fsi latest_release_path with
      | error e => simp [hrl]
      | ok old_dir =>
        by_cases hol : old_dir = some (runtime_subdir ++ ["extracted." ++ tag])
        · simp [hrl, hol]
        · simp only [hrl, if_neg hol]
          cases hre : remove_if_exists fsi (runtime_subdir ++ ["latest." ++ tag]) with
          | error e => simp [hre]
          | ok fs3 =>
            cases hsl : os_symlink fs3 (runtime_subdir ++ ["extracted." ++ tag])
                (runtime_subdir ++ ["latest." ++ tag]) with
            | error e => simp [hre, hsl]
            | ok fs4 =>
              cases hrn : os_rename_entry fs4 (runtime_subdir ++ ["latest." ++ tag])
                  latest_release_path with
              | error e => simp [hre, hsl, hrn]
              | ok fs5 =>
                simp only [hre, hsl, hrn]
                exact gc_phase_gc_independent (withGC tenv g1) (withGC tenv g2) fs5 _ _ w



/-! ## Lemmas toward idempotence -/

theorem realpathAux_nil (fs : FS) (n : Nat) (acc : Path) :
    realpathAux fs (n + 1) acc [] = acc := by
  simp [realpathAux]

theorem realpathAux_dir_step (fs : FS) (n : Nat) (acc : Path) (c : String) (rest : Path)
    (h : fsGet fs (acc ++ [c]) = some Node.dir) :
    realpathAux fs (n + 1) acc (c :: rest) = realpathAux fs n (acc ++ [c]) rest := by
  simp [realpathAux, h]

theorem realpathAux_none_step (fs : FS) (n : Nat) (acc : Path) (c : String) (rest : Path)
    (h : fsGet fs (acc ++ [c]) = none) :
    realpathAux fs (n + 1) acc (c :: rest) = realpathAux fs n (acc ++ [c]) rest := by
  simp [realpathAux, h]

theorem realpath_runtime_child_dir (fs : FS) (x : String) (hcan : canonicalRoot fs)
    (hx : fsGet fs (runtime_subdir ++ [x]) = some Node.dir) :
    realpath fs (runtime_subdir ++ [x]) = runtime_subdir ++ [x] := by
  obtain ⟨h1, h2⟩ := hcan
  have e1 : realpathAux fs 32 [] ["runtime", "winestreamproxy", x]
      = realpathAux fs 31 ["runtime"] ["winestreamproxy", x] := by
    have := realpathAux_dir_step fs 31 [] "runtime" ["winestreamproxy", x]
      (by simpa [RUNTIME_DIR] using h1)
    simpa using this
  have e2 : realpathAux fs 31 ["runtime"] ["winestreamproxy", x]
      = realpathAux fs 30 ["runtime", "winestreamproxy"] [x] := by
    have := realpathAux_dir_step fs 30 ["runtime"] "winestreamproxy" [x]
      (by simpa [runtime_subdir, RUNTIME_DIR] using h2)
    simpa using this
  have e3 : realpathAux fs 30 ["runtime", "winestreamproxy"] [x]
      = realpathAux fs 29 ["runtime", "winestreamproxy", x] [] := by
    have := realpathAux_dir_step fs 29 ["runtime", "winestreamproxy"] x []
      (by simpa [runtime_subdir, RUNTIME_DIR] using hx)
    simpa using this
  have e4 : realpathAux fs 29 ["runtime", "winestreamproxy", x] []
      = ["runtime", "winestreamproxy", x] := realpathAux_nil fs 28 _
  show realpathAux fs 32 [] ["runtime", "winestreamproxy", x]
      = ["runtime", "winestreamproxy", x]
  rw [e1, e2, e3, e4]

theorem realpath_runtime_child_none (fs : FS) (x : String) (hcan : canonicalRoot fs)
    (hx : fsGet fs (runtime_subdir ++ [x]) = none) :
    realpath fs (runtime_subdir ++ [x]) = runtime_subdir ++ [x] := by
  obtain ⟨h1, h2⟩ := hcan
  have e1 : realpathAux fs 32 [] ["runtime", "winestreamproxy", x]
      = realpathAux fs 31 ["runtime"] ["winestreamproxy", x] := by
    have := realpathAux_dir_step fs 31 [] "runtime" ["winestreamproxy", x]
      (by simpa [RUNTIME_DIR] using h1)
    simpa using this
  have e2 : realpathAux fs 31 ["runtime"] ["winestreamproxy", x]
      = realpathAux fs 30 ["runtime", "winestreamproxy"] [x] := by
    have := realpathAux_dir_step fs 30 ["runtime"] "winestreamproxy" [x]
      (by simpa [runtime_subdir, RUNTIME_DIR] using h2)
    simpa using this
  have e3 : realpathAux fs 30 ["runtime", "winestreamproxy"] [x]
      = realpathAux fs 29 ["runtime", "winestreamproxy", x] [] := by
    have := realpathAux_none_step fs 29 ["runtime", "winestreamproxy"] x []
      (by simpa [runtime_subdir, RUNTIME_DIR] using hx)
    simpa using this
  have e4 : realpathAux fs 29 ["runtime", "winestreamproxy", x] []
      = ["runtime", "winestreamproxy", x] := realpathAux_nil fs 28 _
  show realpathAux fs 32 [] ["runtime", "winestreamproxy", x]
      = ["runtime", "winestreamproxy", x]
  rw [e1, e2, e3, e4]

theorem exists_runtime_child_dir (fs : FS) (x : String) (hcan : canonicalRoot fs)
    (hx : fsGet fs (runtime_subdir ++ [x]) = some Node.dir) :
    os_path_exists fs (runtime_subdir ++ [x]) = true := by
  unfold os_path_exists
  rw [realpath_runtime_child_dir fs x hcan hx, hx]
  rfl

theorem not_exists_runtime_child_none (fs : FS) (x : String) (hcan : canonicalRoot fs)
    (hx : fsGet fs (runtime_subdir ++ [x]) = none) :
    os_path_exists fs (runtime_subdir ++ [x]) = false := by
  unfold os_path_exists
  rw [realpath_runtime_child_none fs x hcan hx, hx]
  rfl

theorem fsGet_of_exists (fs : FS) (x : String) (hcan : canonicalRoot fs)
    (hgood : fsGet fs (runtime_subdir ++ [x]) = none
      ∨ fsGet fs (runtime_subdir ++ [x]) = some Node.dir)
    (hex : os_path_exists fs (runtime_subdir ++ [x]) = true) :
    fsGet fs (runtime_subdir ++ [x]) = some Node.dir := by
  rcases hgood with hnone | hdir
  · rw [not_exists_runtime_child_none fs x hcan hnone] at hex
    exact absurd hex (by decide)
  · exact hdir

theorem str_ne_of_length (s t : String) (h : s.length ≠ t.length) : s ≠ t :=
  fun he => h (he ▸ rfl)

theorem latest_tag_ne_extracted_tag (tag : String) :
    ("latest." ++ tag) ≠ ("extracted." ++ tag) := by
  apply str_ne_of_length
  rw [string_length_append, string_length_append]
  have h1 : ("latest." : String).length = 7 := rfl
  have h2 : ("extracted." : String).length = 10 := rfl
  omega

theorem latest_ne_extracted_tag (tag : String) : "latest" ≠ "extracted." ++ tag := by
  apply str_ne_of_length
  rw [string_length_append]
  have h1 : ("latest" : String).length = 6 := rfl
  have h2 : ("extracted." : String).length = 10 := rfl
  omega

theorem latest_ne_latest_tag (tag : String) : "latest" ≠ "latest." ++ tag := by
  apply str_ne_of_length
  rw [string_length_append]
  have h1 : ("latest" : String).length = 6 := rfl
  have h2 : ("latest." : String).length = 7 := rfl
  omega

theorem runtime_child_ne_RUNTIME_DIR (x : String) : runtime_subdir ++ [x] ≠ RUNTIME_DIR := by
  intro h
  have := congrArg List.length h
  simp [runtime_subdir, RUNTIME_DIR] at this

theorem runtime_child_ne_runtime_subdir (x : String) :
    runtime_subdir ++ [x] ≠ runtime_subdir := by
  intro h
  have := congrArg List.length h
  simp [runtime_subdir, RUNTIME_DIR] at this

theorem runtime_child_ne (x y : String) (h : x ≠ y) :
    runtime_subdir ++ [x] ≠ runtime_subdir ++ [y] := by
  intro he
  have := congrArg List.getLast? he
  rw [List.getLast?_concat, List.getLast?_concat] at this
  exact h (Option.some_injective _ this)

theorem stagingPath_runtime_child (x : String) :
    stagingPath (runtime_subdir ++ [x]) = runtime_subdir ++ ["." ++ x] := by
  simp [stagingPath, dirname, basename, List.dropLast_concat]

theorem canonicalRoot_fsSet (fs : FS) (p : Path) (n : Node) (hcan : canonicalRoot fs)
    (h1 : p ≠ RUNTIME_DIR) (h2 : p ≠ runtime_subdir) : canonicalRoot (fsSet fs p n) :=
  ⟨by rw [fsGet_fsSet_ne _ _ _ _ h1]; exact hcan.1,
   by rw [fsGet_fsSet_ne _ _ _ _ h2]; exact hcan.2⟩

theorem canonicalRoot_fsRemove (fs : FS) (p : Path) (hcan : canonicalRoot fs)
    (h1 : p ≠ RUNTIME_DIR) (h2 : p ≠ runtime_subdir) : canonicalRoot (fsRemove fs p) :=
  ⟨by rw [fsGet_fsRemove_ne _ _ _ h1]; exact hcan.1,
   by rw [fsGet_fsRemove_ne _ _ _ h2]; exact hcan.2⟩

theorem gc_p_ne_roots (p : Path)
    (hpref : str_startswith "extracted." (basename p) = true) :
    p ≠ RUNTIME_DIR ∧ p ≠ runtime_subdir := by
  constructor
  · intro h
    subst h
    revert hpref
    decide
  · intro h
    subst h
    revert hpref
    decide

theorem remove_if_exists_preserves (fs fs3 : FS) (p : Path)
    (h : remove_if_exists fs p = Except.ok fs3) (q : Path) (hq : q ≠ p) :
    fsGet fs3 q = fsGet fs q := by
  unfold remove_if_exists at h
  split at h
  · injection h with h2
    rw [← h2]
  · exact absurd h (by simp)
  · injection h with h2
    rw [← h2, fsGet_fsRemove_ne _ _ _ (Ne.symm hq)]

theorem os_symlink_ok_eq (fs fs4 : FS) (t p : Path)
    (h : os_symlink fs t p = Except.ok fs4) : fs4 = fsSet fs p (Node.symlink t) := by
  unfold os_symlink at h
  split at h
  · exact absurd h (by simp)
  · injection h with h2
    rw [← h2]

theorem os_rename_ok_eq (fs fs5 : FS) (src dst : Path)
    (h : os_rename_entry fs src dst = Except.ok fs5) :
    ∃ n, fs5 = fsSet (fsRemove fs src) dst n := by
  unfold os_rename_entry at h
  split at h
  · exact absurd h (by simp)
  · split at h
    · exact absurd h (by simp)
    · injection h with h2
      exact ⟨_, h2.symm⟩

theorem gc_phase_work (tenv : TailEnv) (fs5 : FS) (odr : Option Path) (et : Path)
    (w : Nat) : (gc_phase tenv fs5 odr et w).work = w := by
  cases odr with
  | none => rfl
  | some q =>
    unfold gc_phase
    cases h1 : samefile fs5 q et with
    | error e => simp [h1]
    | ok b =>
      cases b with
      | true => simp [h1]
      | false =>
        cases h2 : samefile fs5 (dirname q) runtime_subdir with
        | error e => simp [h1, h2]
        | ok b2 =>
          cases b2 with
          | false => simp [h1, h2]
          | true =>
            cases h3 : str_startswith "extracted." (basename q) with
            | false => simp [h1, h2, h3]
            | true =>
              cases hg : tenv.gcRemove with
              | error e => simp [h1, h2, h3, hg]
              | ok u => simp [h1, h2, h3, hg]

theorem gc_phase_fs (tenv : TailEnv) (fs5 : FS) (odr : Option Path) (et : Path)
    (w : Nat) :
    (gc_phase tenv fs5 odr et w).fs = fs5
    ∨ ∃ p, (p, fs5) ∈ (gc_phase tenv fs5 odr et w).gcRemoved
        ∧ (gc_phase tenv fs5 odr et w).fs = remove_folder fs5 p := by
  cases odr with
  | none => exact Or.inl rfl
  | some q =>
    unfold gc_phase
    cases h1 : samefile fs5 q et with
    | error e => exact Or.inl (by simp [h1])
    | ok b =>
      cases b with
      | true => exact Or.inl (by simp [h1])
      | false =>
        cases h2 : samefile fs5 (dirname q) runtime_subdir with
        | error e => exact Or.inl (by simp [h1, h2])
        | ok b2 =>
          cases b2 with
          | false => exact Or.inl (by simp [h1, h2])
          | true =>
            cases h3 : str_startswith "extracted." (basename q) with
            | false => exact Or.inl (by simp [h1, h2, h3])
            | true =>
              cases hg : tenv.gcRemove with
              | error e => exact Or.inl (by simp [h1, h2, h3, hg])
              | ok u =>
                refine Or.inr ⟨q, ?_, ?_⟩ <;> simp [h1, h2, h3, hg]



theorem dl_extract_ok_eq (tenv : TailEnv) (fs : FS) (et : Path) (rd : Except Err Unit)
    (fsx : FS) (h : download_and_extract_tar_file tenv fs et = (rd, fsx))
    (hrd : rd = Except.ok ()) :
    fsGet fs et = none
    ∧ fsx = fsSet (fsRemove (fsSet fs (stagingPath et) Node.dir) (stagingPath et))
        et Node.dir := by
  unfold download_and_extract_tar_file at h
  cases hf : tenv.fetch with
  | error e =>
    simp only [hf, Prod.mk.injEq] at h
    rw [← h.1] at hrd
    exact absurd hrd (by simp)
  | ok u1 =>
    cases hx : tenv.extract with
    | error e =>
      simp only [hf, hx, Prod.mk.injEq] at h
      rw [← h.1] at hrd
      exact absurd hrd (by simp)
    | ok u2 =>
      cases hc : tenv.chmod with
      | error e =>
        simp only [hf, hx, hc, Prod.mk.injEq] at h
        rw [← h.1] at hrd
        exact absurd hrd (by simp)
      | ok u3 =>
        cases hr : tenv.renameOutcome with
        | error e =>
          simp only [hf, hx, hc, hr, Prod.mk.injEq] at h
          rw [← h.1] at hrd
          exact absurd hrd (by simp)
        | ok u4 =>
          cases hocc : fsGet (fsSet fs (stagingPath et) Node.dir) et with
          | some n =>
            simp only [hf, hx, hc, hr, hocc, Prod.mk.injEq] at h
            rw [← h.1] at hrd
            exact absurd hrd (by simp)
          | none =>
            simp only [hf, hx, hc, hr, hocc, Prod.mk.injEq] at h
            refine ⟨?_, h.2.symm⟩
            by_cases hsame : stagingPath et = et
            · rw [hsame] at hocc
              simp at hocc
            · rw [fsGet_fsSet_ne _ _ _ _ hsame] at hocc
              exact hocc

theorem install_phase_exists (tenv : TailEnv) (doc : ReleaseDoc) (fs : FS) (et : Path)
    (hex : os_path_exists fs et = true) :
    install_phase tenv doc fs et = (Except.ok (), fs, 0) := by
  simp [install_phase, hex]

theorem install_phase_work_le (tenv : TailEnv) (doc : ReleaseDoc) (fs : FS) (et : Path) :
    (install_phase tenv doc fs et).2.2 ≤ 1 := by
  unfold install_phase
  by_cases hex : os_path_exists fs et = true
  · simp [hex]
  · rw [if_neg hex]
    cases hurl : get_download_url_from_json doc with
    | error e => simp
    | ok url =>
      cases hmk : makedirs_runtime fs with
      | error e => simp
      | ok fsm =>
        rcases hdl : download_and_extract_tar_file tenv fsm et with ⟨rd, fsx⟩
        cases rd <;> simp [hdl]

theorem install_phase_invariant (tenv : TailEnv) (doc : ReleaseDoc) (fs : FS)
    (x : String) (hcan : canonicalRoot fs)
    (hgood : fsGet fs (runtime_subdir ++ [x]) = none
        ∨ fsGet fs (runtime_subdir ++ [x]) = some Node.dir)
    (r : Except Err Unit) (fsi : FS) (w : Nat)
    (heq : install_phase tenv doc fs (runtime_subdir ++ [x]) = (r, fsi, w))
    (hr : r = Except.ok ()) :
    canonicalRoot fsi ∧ fsGet fsi (runtime_subdir ++ [x]) = some Node.dir := by
  unfold install_phase at heq
  by_cases hex : os_path_exists fs (runtime_subdir ++ [x]) = true
  · rw [if_pos hex] at heq
    simp only [Prod.mk.injEq] at heq
    obtain ⟨h1, h2, h3⟩ := heq
    rw [← h2]
    exact ⟨hcan, fsGet_of_exists fs x hcan hgood hex⟩
  · rw [if_neg hex] at heq
    cases hurl : get_download_url_from_json doc with
    | error e =>
      simp only [hurl, Prod.mk.injEq] at heq
      rw [← heq.1] at hr
      exact absurd hr (by simp)
    | ok url =>
      have hmk : makedirs_runtime fs = Except.ok fs := by
        unfold makedirs_runtime
        rw [hcan.2]
      simp only [hurl, hmk] at heq
      rcases hdl : download_and_extract_tar_file tenv fs (runtime_subdir ++ [x])
        with ⟨rd, fsx⟩
      rw [hdl] at heq
      cases rd with
      | error e =>
        simp only [Prod.mk.injEq] at heq
        rw [← heq.1] at hr
        exact absurd hr (by simp)
      | ok u =>
        simp only [Prod.mk.injEq] at heq
        obtain ⟨h1, h2, h3⟩ := heq
        obtain ⟨hnone, hfsx⟩ := dl_extract_ok_eq tenv fs _ _ fsx hdl rfl
        rw [← h2, hfsx]
        have hstag : stagingPath (runtime_subdir ++ [x]) = runtime_subdir ++ ["." ++ x] :=
          stagingPath_runtime_child x
        have hs1 : stagingPath (runtime_subdir ++ [x]) ≠ RUNTIME_DIR := by
          rw [hstag]
          exact runtime_child_ne_RUNTIME_DIR _
        have hs2 : stagingPath (runtime_subdir ++ [x]) ≠ runtime_subdir := by
          rw [hstag]
          exact runtime_child_ne_runtime_subdir _
        constructor
        · exact canonicalRoot_fsSet _ _ _
            (canonicalRoot_fsRemove _ _
              (canonicalRoot_fsSet _ _ _ hcan hs1 hs2) hs1 hs2)
            (runtime_child_ne_RUNTIME_DIR x) (runtime_child_ne_runtime_subdir x)
        · exact fsGet_fsSet_self _ _ _

theorem download_tail_work (tenv : TailEnv) (doc : ReleaseDoc) (fs : FS) (tag : String)
    (htag : doc.tag_name = some tag) :
    (download_tail tenv doc fs).work
      = (install_phase tenv doc fs (runtime_subdir ++ ["extracted." ++ tag])).2.2 := by
  simp only [download_tail, htag]
  rcases hi : install_phase tenv doc fs (runtime_subdir ++ ["extracted." ++ tag])
    with ⟨r, fsi, w⟩
  cases r with
  | error e => simp
  | ok u =>
    cases hrl : try_readlink fsi latest_release_path with
    | error e => simp [hrl]
    | ok old_dir =>
      by_cases hol : old_dir = some (runtime_subdir ++ ["extracted." ++ tag])
      · simp [hrl, hol]
      · simp only [hrl, if_neg hol]
        cases hre : remove_if_exists fsi (runtime_subdir ++ ["latest." ++ tag]) with
        | error e => simp [hre]
        | ok fs3 =>
          cases hsl : os_symlink fs3 (runtime_subdir ++ ["extracted." ++ tag])
              (runtime_subdir ++ ["latest." ++ tag]) with
          | error e => simp [hre, hsl]
          | ok fs4 =>
            cases hrn : os_rename_entry fs4 (runtime_subdir ++ ["latest." ++ tag])
                latest_release_path with
            | error e => simp [hre, hsl, hrn]
            | ok fs5 =>
              simp only [hre, hsl, hrn]
              exact gc_phase_work tenv fs5 _ _ w



theorem download_tail_ok_invariant (tenv : TailEnv) (doc : ReleaseDoc) (fs : FS)
    (tag : String) (htag : doc.tag_name = some tag) (hcan : canonicalRoot fs)
    (hgood : fsGet fs (runtime_subdir ++ ["extracted." ++ tag]) = none
        ∨ fsGet fs (runtime_subdir ++ ["extracted." ++ tag]) = some Node.dir)
    (hok : (download_tail tenv doc fs).result = Except.ok ()) :
    canonicalRoot (download_tail tenv doc fs).fs
    ∧ fsGet (download_tail tenv doc fs).fs (runtime_subdir ++ ["extracted." ++ tag])
        = some Node.dir := by
  have h_t1 : runtime_subdir ++ ["latest." ++ tag] ≠ RUNTIME_DIR :=
    runtime_child_ne_RUNTIME_DIR _
  have h_t2 : runtime_subdir ++ ["latest." ++ tag] ≠ runtime_subdir :=
    runtime_child_ne_runtime_subdir _
  have h_t3 : runtime_subdir ++ ["latest." ++ tag]
      ≠ runtime_subdir ++ ["extracted." ++ tag] :=
    runtime_child_ne _ _ (latest_tag_ne_extracted_tag tag)
  have h_l1 : latest_release_path ≠ RUNTIME_DIR := runtime_child_ne_RUNTIME_DIR "latest"
  have h_l2 : latest_release_path ≠ runtime_subdir :=
    runtime_child_ne_runtime_subdir "latest"
  have h_l3 : latest_release_path ≠ runtime_subdir ++ ["extracted." ++ tag] :=
    runtime_child_ne _ _ (latest_ne_extracted_tag tag)
  simp only [download_tail, htag] at hok ⊢
  generalize hi : install_phase tenv doc fs (runtime_subdir ++ ["extracted." ++ tag])
      = trip at hok ⊢
  obtain ⟨r, fsi, w⟩ := trip
  cases r with
  | error e => simp at hok
  | ok u =>
    cases u
    obtain ⟨hcani, hdiri⟩ :=
      install_phase_invariant tenv doc fs ("extracted." ++ tag) hcan hgood
        (Except.ok ()) fsi w hi rfl
    cases hrl : try_readlink fsi latest_release_path with
    | error e => simp [hrl] at hok
    | ok old_dir =>
      by_cases hol : old_dir = some (runtime_subdir ++ ["extracted." ++ tag])
      · simp [hrl, hol, hcani, hdiri]
      · simp only [hrl, if_neg hol] at hok ⊢
        cases hre : remove_if_exists fsi (runtime_subdir ++ ["latest." ++ tag]) with
        | error e => simp [hre] at hok
        | ok fs3 =>
          have hcan3 : canonicalRoot fs3 :=
            ⟨by rw [remove_if_exists_preserves fsi fs3 _ hre RUNTIME_DIR (Ne.symm h_t1)]
                exact hcani.1,
             by rw [remove_if_exists_preserves fsi fs3 _ hre runtime_subdir (Ne.symm h_t2)]
                exact hcani.2⟩
          have hdir3 : fsGet fs3 (runtime_subdir ++ ["extracted." ++ tag])
              = some Node.dir := by
            rw [remove_if_exists_preserves fsi fs3 _ hre _ (Ne.symm h_t3)]
            exact hdiri
          cases hsl : os_symlink fs3 (runtime_subdir ++ ["extracted." ++ tag])
              (runtime_subdir ++ ["latest." ++ tag]) with
          | error e => simp [hre, hsl] at hok
          | ok fs4 =>
            have hfs4 := os_symlink_ok_eq fs3 fs4 _ _ hsl
            have hcan4 : canonicalRoot fs4 := by
              rw [hfs4]
              exact canonicalRoot_fsSet _ _ _ hcan3 h_t1 h_t2
            have hdir4 : fsGet fs4 (runtime_subdir ++ ["extracted." ++ tag])
                = some Node.dir := by
              rw [hfs4, fsGet_fsSet_ne _ _ _ _ h_t3]
              exact hdir3
            cases hrn : os_rename_entry fs4 (runtime_subdir ++ ["latest." ++ tag])
                latest_release_path with
            | error e => simp [hre, hsl, hrn] at hok
            | ok fs5 =>
              obtain ⟨n5, hfs5⟩ := os_rename_ok_eq fs4 fs5 _ _ hrn
              have hcan5 : canonicalRoot fs5 := by
                rw [hfs5]
                exact canonicalRoot_fsSet _ _ _
                  (canonicalRoot_fsRemove _ _ hcan4 h_t1 h_t2) h_l1 h_l2
              have hdir5 : fsGet fs5 (runtime_subdir ++ ["extracted." ++ tag])
                  = some Node.dir := by
                rw [hfs5, fsGet_fsSet_ne _ _ _ _ h_l3, fsGet_fsRemove_ne _ _ _ h_t3]
                exact hdir4
              simp only [hre, hsl, hrn] at hok ⊢
              rcases gc_phase_fs tenv fs5
                  (Option.map (fun p => realpath fsi p) old_dir)
                  (runtime_subdir ++ ["extracted." ++ tag]) w with hfs | ⟨p, hmem, hfs⟩
              · rw [hfs]
                exact ⟨hcan5, hdir5⟩
              · obtain ⟨hs, hsf1, hsf2, hpref⟩ :=
                  gc_phase_removed tenv fs5 _ _ w p fs5 hmem
                have hpne : p ≠ runtime_subdir ++ ["extracted." ++ tag] := by
                  intro hpe
                  exact (samefile_ok_false _ _ _ hsf1) (by rw [hpe])
                obtain ⟨hp1, hp2⟩ := gc_p_ne_roots p hpref
                rw [hfs]
                refine ⟨canonicalRoot_fsRemove _ _ hcan5 hp1 hp2, ?_⟩
                rw [remove_folder, fsGet_fsRemove_ne _ _ _ hpne]
                exact hdir5



/-- C8: install is idempotent per tag.  A run performs the download and
extraction block at most once; when the versioned directory extracted.tag
already exists no archive download or extraction happens at all; when on
top of that the active link already targets that directory the call
changes nothing and returns immediately; and after any successful run a
second run with the same metadata performs zero download and extraction
work. -/
theorem c8_idempotent (tenv tenv2 : TailEnv) (doc : ReleaseDoc) (fs : FS)
    (tag : String) (htag : doc.tag_name = some tag) (hcan : canonicalRoot fs)
    (hgood : fsGet fs (runtime_subdir ++ ["extracted." ++ tag]) = none
        ∨ fsGet fs (runtime_subdir ++ ["extracted." ++ tag]) = some Node.dir) :
    (download_tail tenv doc fs).work ≤ 1
    ∧ (os_path_exists fs (runtime_subdir ++ ["extracted." ++ tag]) = true →
        (download_tail tenv doc fs).work = 0)
    ∧ (os_path_exists fs (runtime_subdir ++ ["extracted." ++ tag]) = true →
        try_readlink fs latest_release_path
          = Except.ok (some (runtime_subdir ++ ["extracted." ++ tag])) →
        download_tail tenv doc fs = ⟨Except.ok (), fs, 0, []⟩)
    ∧ ((download_tail tenv doc fs).result = Except.ok () →
        (download_tail tenv2 doc (download_tail tenv doc fs).fs).work = 0) := by
  refine ⟨?_, ?_, ?_, ?_⟩
  · rw [download_tail_work tenv doc fs tag htag]
    exact install_phase_work_le tenv doc fs _
  · intro hex
    rw [download_tail_work tenv doc fs tag htag,
      install_phase_exists tenv doc fs _ hex]
  · intro hex hrl
    simp [download_tail, htag, install_phase_exists tenv doc fs _ hex, hrl]
  · intro hok
    obtain ⟨hcan2, hdir2⟩ :=
      download_tail_ok_invariant tenv doc fs tag htag hcan hgood hok
    rw [download_tail_work tenv2 doc _ tag htag,
      install_phase_exists tenv2 doc _ _ (exists_runtime_child_dir _ _ hcan2 hdir2)]

/-- C8 witness: with extracted.v2 installed and active, a further call
changes nothing, performs no work, and returns immediately. -/
theorem c8_idempotent_witness :
    os_path_exists fsActiveV2 (runtime_subdir ++ ["extracted.v2"]) = true
    ∧ download_tail tenvOk docV2 fsActiveV2 = ⟨Except.ok (), fsActiveV2, 0, []⟩ :=
  ⟨by decide,
   (c8_idempotent tenvOk tenvOk docV2 fsActiveV2 "v2" rfl (by decide)
      (Or.inr (by decide))).2.2.1 (by decide) (by decide)⟩


end Discordipc
